import Mathlib

/-!
Shallow embedding of the interest-based filtering engine of the
`ai-news-bot` repository (`src/filters/interest_filter.py`), together with
theorems that settle the frozen claims about its specification.

Modelling conventions:
* Numbers are rationals (`ℚ`): the Python code only adds, multiplies and
  compares its scoring constants, so `ℚ` models that arithmetic exactly.
* Python dictionaries (the posts) are association lists with
  first-occurrence lookup; Python dicts have unique keys, and `dictInsert`
  below reproduces the key-position semantics of `{**post, k: v}`.
* A compiled pattern `re.compile('|'.join(r'\x08' + re.escape(kw) + r'\x08'
  for kw in keywords), re.IGNORECASE)` (where `\x08` stands for the regex
  word-boundary escape) is modelled by an explicit scanning matcher over
  `List Char`: every keyword is matched literally (escaped), anchored by
  word boundaries on both sides, case-insensitively.  Word characters are
  the ASCII fragment of Python's word class (letters, digits, underscore)
  and case folding is ASCII `Char.toLower`; the claims only exercise ASCII
  text.
-/

set_option maxHeartbeats 1000000

namespace NewsBot

/-- Word characters, as used by the regex word-boundary semantics (ASCII
fragment of Python's word class: letters, digits, underscore). -/
def isWordChar (c : Char) : Bool :=
  c.isAlphanum || c == '_'

/-- Whether the character at index `i` of `text` exists and is a word
character; out-of-range positions count as non-word. -/
def wordAt (text : List Char) (i : Nat) : Bool :=
  match text[i]? with
  | some c => isWordChar c
  | none => false

/-- Word boundary just before index `i`: the word-ness of the character at
`i - 1` (non-word when `i = 0`) differs from the word-ness of the character
at `i`. -/
def boundaryAt (text : List Char) (i : Nat) : Bool :=
  (if i = 0 then false else wordAt text (i - 1)) != wordAt text i

/-- Case-insensitive literal match of `kw` starting at index `i` of `text`.
The compiled pattern escapes every keyword (`re.escape`), so matching is
literal; `re.IGNORECASE` is modelled by comparing lowered characters. -/
def charsMatchAt (kw : List Char) (text : List Char) (i : Nat) : Bool :=
  match kw with
  | [] => true
  | c :: rest =>
    match text[i]? with
    | some d => (c.toLower == d.toLower) && charsMatchAt rest text (i + 1)
    | none => false

/-- Semantics of one compiled alternative (word boundary, escaped keyword,
word boundary) at index `i` of `text`. -/
def matchesAt (kw : List Char) (text : List Char) (i : Nat) : Bool :=
  boundaryAt text i && charsMatchAt kw text i && boundaryAt text (i + kw.length)

/-- Try the alternatives of the compiled alternation in order at index `i`,
returning the matched substring of `text` (with the text's own casing).
Python's regex alternation is leftmost-first: at a given position the first
alternative that matches wins. -/
def tryAlts (kws : List (List Char)) (text : List Char) (i : Nat) : Option (List Char) :=
  match kws with
  | [] => none
  | kw :: rest =>
    if matchesAt kw text i then some ((text.drop i).take kw.length) else tryAlts rest text i

/-- First match of the compiled pattern at index `i`.  A topic with an
empty keyword list compiles to `re.compile('')`, the empty pattern, which
matches the empty string at every position of the text. -/
def firstMatchAt (kws : List (List Char)) (text : List Char) (i : Nat) : Option (List Char) :=
  match kws with
  | [] => if i ≤ text.length then some [] else none
  | _ :: _ => tryAlts kws text i

/-- Scan of `pattern.findall(text)`: non-overlapping matches found left to
right, each match advancing the scan past its end (and one position past a
zero-width match).  `fuel` bounds the recursion; it is instantiated with
`text.length + 1` so that every position `0 … text.length` can be
visited. -/
def findallAux (kws : List (List Char)) (text : List Char) : Nat → Nat → List (List Char)
  | 0, _ => []
  | fuel + 1, i =>
    match firstMatchAt kws text i with
    | some m => m :: findallAux kws text fuel (i + max m.length 1)
    | none => findallAux kws text fuel (i + 1)

/-- Model of `pattern.findall(text)` for the pattern compiled from
`keywords` (the pattern has no groups, so `findall` returns the full
matched substrings, with the casing they have in `text`). -/
def findall (kws : List String) (text : String) : List String :=
  (findallAux (kws.map String.data) text.data (text.data.length + 1) 0).map String.mk

/-- Truthiness of `pattern.search(text)`: `re.search` returns the leftmost
match object, which is truthy exactly when some match exists, i.e. exactly
when `findall` is non-empty. -/
def searchB (kws : List String) (text : String) : Bool :=
  !(findall kws text).isEmpty

/-- One entry of the `interests` configuration list (the compiled pattern
is represented by the keyword list itself, see `findall`). -/
structure Interest where
  topic : String
  priority : String
  keywords : List String
  deriving DecidableEq

/-- One entry of the `exclude_topics` configuration list. -/
structure Exclude where
  topic : String
  keywords : List String
  deriving DecidableEq

/-- The `scoring` configuration block. -/
structure Scoring where
  exclude_penalty : ℚ
  title_match_multiplier : ℚ
  summary_match_multiplier : ℚ
  high_priority_weight : ℚ
  medium_priority_weight : ℚ
  low_priority_weight : ℚ
  minimum_score_threshold : ℚ
  deriving DecidableEq

/-- A loaded `InterestFilter` (the state held by the Python object after
`__init__`). -/
structure InterestFilter where
  interests : List Interest
  exclude_topics : List Exclude
  scoring : Scoring
  deriving DecidableEq

/-- One entry of `matches['matched_topics']`. -/
structure MatchedTopic where
  topic : String
  priority : String
  score : ℚ
  deriving DecidableEq

/-- The `matches` dictionary built by `score_post`.  `score_breakdown` is a
dict keyed by topic identifiers (or the reserved `"exclusion_penalty"`),
modelled as an association list in insertion order. -/
structure Matches where
  matched_topics : List MatchedTopic
  matched_keywords : List String
  exclude_matches : List String
  score_breakdown : List (String × ℚ)
  deriving DecidableEq

/-- Values stored in a post dictionary. -/
inductive Val where
  | str : String → Val
  | strList : List String → Val
  | num : ℚ → Val
  | bool : Bool → Val
  | matchInfo : Matches → Val
  deriving DecidableEq

/-- A post: a Python dict, modelled as an association list with
first-occurrence lookup (Python dicts have unique keys). -/
abbrev Post := List (String × Val)

/-- Python `post.get(k, '')` for string-valued fields.  The claims only
exercise posts whose present fields are correctly typed, where defaulting
on a type mismatch never fires. -/
def getStr (post : Post) (k : String) : String :=
  match List.lookup k post with
  | some (Val.str s) => s
  | _ => ""

/-- Python `post.get(k, [])` for string-list fields. -/
def getStrList (post : Post) (k : String) : List String :=
  match List.lookup k post with
  | some (Val.strList l) => l
  | _ => []

/-- Model of `_get_priority_weight`: the three known priorities map to the
configured weights, anything else defaults to `1` (`mapping.get(priority,
1)`). -/
def get_priority_weight (sc : Scoring) (priority : String) : ℚ :=
  if priority = "high" then sc.high_priority_weight
  else if priority = "medium" then sc.medium_priority_weight
  else if priority = "low" then sc.low_priority_weight
  else 1

/-- All keyword matches of `interest['pattern']` across the three searched
fields, in the order `score_post` extends `topic_matches` (title matches,
then summary matches, then key-points/significance matches). -/
def topicMatchList (i : Interest) (title summary other : String) : List String :=
  findall i.keywords title ++ findall i.keywords summary ++ findall i.keywords other

/-- The `topic_score` accumulated for one interest topic: per field, the
number of distinct matched strings (`len(set(field_matches))`) times the
priority weight, times the field multiplier for title and summary.  Each
`if` mirrors the `if field_matches:` guard in the source. -/
def topicScoreVal (sc : Scoring) (i : Interest) (title summary other : String) : ℚ :=
  let w := get_priority_weight sc i.priority
  let titleM := findall i.keywords title
  let summaryM := findall i.keywords summary
  let otherM := findall i.keywords other
  (if titleM = [] then 0 else (titleM.dedup.length : ℚ) * w * sc.title_match_multiplier) +
    (if summaryM = [] then 0 else (summaryM.dedup.length : ℚ) * w * sc.summary_match_multiplier) +
    (if otherM = [] then 0 else (otherM.dedup.length : ℚ) * w)

/-- One iteration of the interest loop of `score_post`.  When the topic has
at least one match (`if topic_matches:`), the topic entry is appended, the
distinct matched strings (`list(set(topic_matches))`, modelled as `dedup`;
Python's set iteration order is unspecified and no claim depends on it) are
merged into `matched_keywords`, the topic score is recorded in the
breakdown, and the running score is increased. -/
def interestStep (sc : Scoring) (title summary other : String) (acc : ℚ × Matches) (i : Interest) :
    ℚ × Matches :=
  let topicScore := topicScoreVal sc i title summary other
  let topicMatches := topicMatchList i title summary other
  if topicMatches = [] then acc
  else
    (acc.1 + topicScore,
      { acc.2 with
        matched_topics := acc.2.matched_topics ++ [⟨i.topic, i.priority, topicScore⟩],
        matched_keywords := acc.2.matched_keywords ++ topicMatches.dedup,
        score_breakdown := acc.2.score_breakdown ++ [(i.topic, topicScore)] })

/-- One iteration of the exclusion loop of `score_post`: a matching
exclusion topic adds `exclude_penalty` to the running score and its topic
identifier to `exclude_matches`. -/
def exclStep (sc : Scoring) (text : String) (acc : ℚ × List String) (e : Exclude) : ℚ × List String :=
  if searchB e.keywords text then (acc.1 + sc.exclude_penalty, acc.2 ++ [e.topic]) else acc

/-- Result of the exclusion loop: the exclusion patterns are searched in
`title + ' ' + summary`. -/
def exclResult (f : InterestFilter) (title summary : String) : ℚ × List String :=
  f.exclude_topics.foldl (exclStep f.scoring (title ++ " " ++ summary)) (0, [])

/-- Body of `score_post` on the four extracted text fields.  After the
exclusion loop, if the running score is at most `exclude_penalty` the
method returns early with only `score_breakdown['exclusion_penalty']` set;
otherwise the interest loop runs on top of the exclusion score. -/
def scoreFields (f : InterestFilter) (title summary keyPointsText significance : String) :
    ℚ × Matches :=
  let excl := exclResult f title summary
  if excl.1 ≤ f.scoring.exclude_penalty then
    (excl.1,
      { matched_topics := [], matched_keywords := [], exclude_matches := excl.2,
        score_breakdown := [("exclusion_penalty", excl.1)] })
  else
    f.interests.foldl (interestStep f.scoring title summary (keyPointsText ++ " " ++ significance))
      (excl.1,
        { matched_topics := [], matched_keywords := [], exclude_matches := excl.2,
          score_breakdown := [] })

/-- Field extraction of `score_post`: `post.get('title', '')`. -/
def postTitle (post : Post) : String := getStr post "title"

/-- Field extraction of `score_post`: `post.get('ai_summary', '')`. -/
def postSummary (post : Post) : String := getStr post "ai_summary"

/-- Field extraction of `score_post`: `' '.join(post.get('key_points', []))`. -/
def postKeyPointsText (post : Post) : String :=
  String.intercalate " " (getStrList post "key_points")

/-- Field extraction of `score_post`: `post.get('significance', '')`. -/
def postSignificance (post : Post) : String := getStr post "significance"

/-- Model of `InterestFilter.score_post`, returning `(score, matches)`. -/
def score_post (f : InterestFilter) (post : Post) : ℚ × Matches :=
  scoreFields f (postTitle post) (postSummary post) (postKeyPointsText post) (postSignificance post)

/-- Python dict update `{**d, k: v}` restricted to one key: replace the
value at the first occurrence of `k` in place, or append `(k, v)` at the
end when `k` is absent (Python dict literals keep the position of existing
keys and append new keys in insertion order). -/
def dictInsert : Post → String → Val → Post
  | [], k, v => [(k, v)]
  | (k', v') :: rest, k, v =>
    if k' = k then (k, v) :: rest else (k', v') :: dictInsert rest k v

/-- The `enhanced_post` built by `filter_posts`: the input post plus the
three computed keys (`{**post, 'relevance_score': …, 'relevance_matches':
…, 'is_relevant': …}`). -/
def enhancePost (f : InterestFilter) (post : Post) : Post :=
  let result := score_post f post
  dictInsert
    (dictInsert
      (dictInsert post "relevance_score" (Val.num result.1))
      "relevance_matches" (Val.matchInfo result.2))
    "is_relevant" (Val.bool (decide (f.scoring.minimum_score_threshold ≤ result.1)))

/-- The sort key `x['relevance_score']`.  The fallback `0` is unreachable
for posts produced by `enhancePost` (Python would raise `KeyError` on a
post without the key). -/
def relScore (post : Post) : ℚ :=
  match List.lookup "relevance_score" post with
  | some (Val.num q) => q
  | _ => 0

/-- Model of `InterestFilter.filter_posts`: annotate every post, then sort
by `relevance_score`, highest first.  Python's `list.sort` is stable, and
with `reverse=True` it keeps the input order of equal keys; `List.mergeSort`
is the stable sort of the Lean library, and a stable sort by a total
preorder has a unique result, so the two agree. -/
def filter_posts (f : InterestFilter) (posts : List Post) : List Post :=
  (posts.map (enhancePost f)).mergeSort (fun a b => decide (relScore b ≤ relScore a))

/-- Errors raised while loading the configuration (`json.load` failures and
`KeyError` on a missing top-level key; the Python code has no dedicated
error class). -/
inductive ConfigError where
  | unreadable : ConfigError
  | missingField : String → ConfigError
  deriving DecidableEq

/-- Parsed JSON configuration as it arrives in `__init__`; the optional
top-level entries model possibly-missing dictionary keys.  Missing
individual scoring constants are not modelled: the code reads them only
inside `score_post`, so their absence cannot affect loading. -/
structure RawConfig where
  interests : Option (List Interest)
  exclude_topics : Option (List Exclude)
  scoring : Option Scoring
  deriving DecidableEq

/-- Model of `InterestFilter.__init__` after a successful `json.load`:
`self.interests = config['interests']` (raises when the key is absent),
`self.exclude_topics = config.get('exclude_topics', [])` (defaults to the
empty list), `self.scoring = config['scoring']` (raises when absent),
followed by `_compile_patterns`, which compiles every keyword list and
cannot fail (an empty keyword list compiles to the empty pattern).  No
other validation is performed. -/
def loadConfig (raw : RawConfig) : Except ConfigError InterestFilter :=
  match raw.interests with
  | none => Except.error (ConfigError.missingField "interests")
  | some ints =>
    match raw.scoring with
    | none => Except.error (ConfigError.missingField "scoring")
    | some sc =>
      Except.ok { interests := ints, exclude_topics := raw.exclude_topics.getD [], scoring := sc }

/-- Scoring constants used by the concrete examples, matching the
end-to-end example of the specification (high weight 5, title multiplier 2,
summary multiplier 1, exclusion penalty -50, threshold 3). -/
def exampleScoring : Scoring :=
  { exclude_penalty := -50, title_match_multiplier := 2, summary_match_multiplier := 1,
    high_priority_weight := 5, medium_priority_weight := 3, low_priority_weight := 1,
    minimum_score_threshold := 3 }

/-- Configuration of the specification's end-to-end example: one robotics
interest topic, no exclusions. -/
def cfgRobot : InterestFilter :=
  { interests := [⟨"robotics", "high", ["robot", "robotics"]⟩],
    exclude_topics := [],
    scoring := exampleScoring }

/-- Document of the specification's end-to-end example. -/
def postRobot : Post := [("title", Val.str "New robot unveiled")]

/-- Configuration with one matching exclusion topic. -/
def cfgOneExcl : InterestFilter :=
  { interests := [⟨"robotics", "high", ["robot", "robotics"]⟩],
    exclude_topics := [⟨"celebrity", ["kardashian"]⟩],
    scoring := exampleScoring }

/-- Document matching both the exclusion keyword and an interest keyword. -/
def postOneExcl : Post := [("title", Val.str "Kardashian launches robot startup")]

/-- Configuration with two exclusion topics, both matched by
`postTwoExcl`. -/
def cfgTwoExcl : InterestFilter :=
  { interests := [⟨"robotics", "high", ["robot", "robotics"]⟩],
    exclude_topics := [⟨"celebrity", ["kardashian"]⟩, ⟨"crypto", ["bitcoin"]⟩],
    scoring := exampleScoring }

/-- Document whose title matches the keywords of both exclusion topics. -/
def postTwoExcl : Post := [("title", Val.str "Kardashian bitcoin robot")]

/-- Raw configuration whose single interest topic has an empty keyword list
and a priority outside {high, medium, low}. -/
def rawBadConfig : RawConfig :=
  { interests := some [⟨"ai", "urgent", []⟩],
    exclude_topics := none,
    scoring := some exampleScoring }

/-- Configuration whose single interest topic carries priority weight 0, so
a keyword match yields topic score 0. -/
def cfgZeroWeight : InterestFilter :=
  { interests := [⟨"robotics", "high", ["robot"]⟩],
    exclude_topics := [],
    scoring := { exampleScoring with high_priority_weight := 0 } }

/-- Document whose title is a single interest keyword occurrence. -/
def postSingleRobot : Post := [("title", Val.str "robot")]

/-- Configuration with two interest topics sharing the keyword `ai`. -/
def cfgSharedKw : InterestFilter :=
  { interests := [⟨"ml", "high", ["ai"]⟩, ⟨"agents", "medium", ["ai"]⟩],
    exclude_topics := [],
    scoring := exampleScoring }

/-- Document whose title matches the shared keyword of both topics. -/
def postAI : Post := [("title", Val.str "ai")]

/-- Document repeating the interest keyword three times with varying
letter-case in the title. -/
def postCased : Post := [("title", Val.str "robot Robot Robot")]

/-- The exclusion topics whose pattern matches `title + ' ' + summary` of
the given post (derived characterization of the exclusion loop). -/
def exclMatched (f : InterestFilter) (post : Post) : List Exclude :=
  f.exclude_topics.filter
    (fun e => searchB e.keywords (postTitle post ++ " " ++ postSummary post))

/-- The score accumulated by the exclusion loop: one `exclude_penalty` per
matching exclusion topic. -/
def exclScore (f : InterestFilter) (post : Post) : ℚ :=
  ((exclMatched f post).length : ℚ) * f.scoring.exclude_penalty

/-- The text searched by the interest loop for key points and
significance. -/
def postOther (post : Post) : String :=
  postKeyPointsText post ++ " " ++ postSignificance post

theorem lookup_dictInsert_self (d : Post) (k : String) (v : Val) :
    List.lookup k (dictInsert d k v) = some v := by
  induction d with
  | nil => simp [dictInsert, List.lookup]
  | cons p rest ih =>
    obtain ⟨k', v'⟩ := p
    by_cases h : k' = k
    · subst h
      simp [dictInsert, List.lookup]
    · have hk : (k == k') = false := beq_eq_false_iff_ne.mpr (Ne.symm h)
      simp [dictInsert, h, List.lookup, hk, ih]

theorem lookup_dictInsert_other (d : Post) (k k' : String) (v : Val) (h : k' ≠ k) :
    List.lookup k' (dictInsert d k v) = List.lookup k' d := by
  induction d with
  | nil => simp [dictInsert, List.lookup, beq_eq_false_iff_ne.mpr h]
  | cons p rest ih =>
    obtain ⟨k₀, v₀⟩ := p
    by_cases h0 : k₀ = k
    · subst h0
      simp [dictInsert, List.lookup, beq_eq_false_iff_ne.mpr h]
    · by_cases hb : k' = k₀
      · subst hb
        simp [dictInsert, h0, List.lookup]
      · simp [dictInsert, h0, List.lookup, beq_eq_false_iff_ne.mpr hb, ih]

theorem lookup_enhancePost_score (f : InterestFilter) (post : Post) :
    List.lookup "relevance_score" (enhancePost f post) = some (Val.num (score_post f post).1) := by
  simp [enhancePost, lookup_dictInsert_self,
    lookup_dictInsert_other _ _ _ _ (by decide : "relevance_score" ≠ "is_relevant"),
    lookup_dictInsert_other _ _ _ _ (by decide : "relevance_score" ≠ "relevance_matches")]

theorem lookup_enhancePost_matchInfo (f : InterestFilter) (post : Post) :
    List.lookup "relevance_matches" (enhancePost f post) =
      some (Val.matchInfo (score_post f post).2) := by
  simp [enhancePost, lookup_dictInsert_self,
    lookup_dictInsert_other _ _ _ _ (by decide : "relevance_matches" ≠ "is_relevant")]

theorem lookup_enhancePost_relevant (f : InterestFilter) (post : Post) :
    List.lookup "is_relevant" (enhancePost f post) =
      some (Val.bool (decide (f.scoring.minimum_score_threshold ≤ (score_post f post).1))) := by
  simp [enhancePost, lookup_dictInsert_self]

theorem lookup_enhancePost_other (f : InterestFilter) (post : Post) (k : String)
    (h1 : k ≠ "relevance_score") (h2 : k ≠ "relevance_matches") (h3 : k ≠ "is_relevant") :
    List.lookup k (enhancePost f post) = List.lookup k post := by
  simp [enhancePost, lookup_dictInsert_other _ _ _ _ h1, lookup_dictInsert_other _ _ _ _ h2,
    lookup_dictInsert_other _ _ _ _ h3]

theorem relScore_enhancePost (f : InterestFilter) (post : Post) :
    relScore (enhancePost f post) = (score_post f post).1 := by
  simp [relScore, lookup_enhancePost_score]

theorem foldl_exclStep (sc : Scoring) (text : String) (es : List Exclude) :
    ∀ (q : ℚ) (ts : List String),
      es.foldl (exclStep sc text) (q, ts) =
        (q + ((es.filter (fun e => searchB e.keywords text)).length : ℚ) * sc.exclude_penalty,
          ts ++ (es.filter (fun e => searchB e.keywords text)).map Exclude.topic) := by
  induction es with
  | nil => intro q ts; simp
  | cons e es ih =>
    intro q ts
    by_cases h : searchB e.keywords text
    · simp only [List.foldl_cons, exclStep, h, if_true, ih, List.filter_cons]
      simp only [h, if_true, List.length_cons, List.map_cons]
      refine Prod.ext ?_ ?_
      · push_cast
        ring
      · simp
    · simp [exclStep, h, ih, List.filter_cons]

theorem foldl_interestStep_matched_topics (sc : Scoring) (t s o : String) (is : List Interest) :
    ∀ acc : ℚ × Matches,
      (is.foldl (interestStep sc t s o) acc).2.matched_topics =
        acc.2.matched_topics ++
          (is.filter (fun i => decide (topicMatchList i t s o ≠ []))).map
            (fun i => ⟨i.topic, i.priority, topicScoreVal sc i t s o⟩) := by
  induction is with
  | nil => intro acc; simp
  | cons i is ih =>
    intro acc
    by_cases h : topicMatchList i t s o = []
    · simp [interestStep, h, ih]
    · simp [interestStep, h, ih]

theorem foldl_interestStep_exclude (sc : Scoring) (t s o : String) (is : List Interest) :
    ∀ acc : ℚ × Matches,
      (is.foldl (interestStep sc t s o) acc).2.exclude_matches = acc.2.exclude_matches := by
  induction is with
  | nil => intro acc; simp
  | cons i is ih =>
    intro acc
    by_cases h : topicMatchList i t s o = []
    · simp [interestStep, h, ih]
    · simp [interestStep, h, ih]

theorem foldl_interestStep_count (sc : Scoring) (t s o : String) (kw : String) (is : List Interest) :
    ∀ acc : ℚ × Matches,
      ((is.foldl (interestStep sc t s o) acc).2.matched_keywords).count kw =
        acc.2.matched_keywords.count kw +
          (is.filter (fun i => decide (kw ∈ topicMatchList i t s o))).length := by
  induction is with
  | nil => intro acc; simp
  | cons i is ih =>
    intro acc
    by_cases h : topicMatchList i t s o = []
    · have hkw : kw ∉ topicMatchList i t s o := by simp [h]
      simp [interestStep, h, ih, hkw]
    · by_cases hkw : kw ∈ topicMatchList i t s o
      · simp only [List.foldl_cons, interestStep, h, if_neg h, ih, List.filter_cons]
        simp [List.count_append, List.count_dedup, hkw]
        omega
      · simp only [List.foldl_cons, interestStep, h, if_neg h, ih, List.filter_cons]
        simp [List.count_append, List.count_dedup, hkw]

theorem exclResult_eq (f : InterestFilter) (post : Post) :
    exclResult f (postTitle post) (postSummary post) =
      (exclScore f post, (exclMatched f post).map Exclude.topic) := by
  have h := foldl_exclStep f.scoring (postTitle post ++ " " ++ postSummary post)
    f.exclude_topics 0 []
  simpa [exclResult, exclScore, exclMatched] using h

theorem score_post_eq (f : InterestFilter) (post : Post) :
    score_post f post =
      if exclScore f post ≤ f.scoring.exclude_penalty then
        (exclScore f post,
          ⟨[], [], (exclMatched f post).map Exclude.topic,
            [("exclusion_penalty", exclScore f post)]⟩)
      else
        f.interests.foldl
          (interestStep f.scoring (postTitle post) (postSummary post) (postOther post))
          (exclScore f post, ⟨[], [], (exclMatched f post).map Exclude.topic, []⟩) := by
  simp only [score_post, scoreFields, exclResult_eq, postOther]

theorem lookup_append (l l' : Post) (k : String) :
    List.lookup k (l ++ l') = (List.lookup k l).orElse (fun _ => List.lookup k l') := by
  induction l with
  | nil => simp [List.lookup]
  | cons p rest ih =>
    obtain ⟨k₀, v₀⟩ := p
    by_cases h : k = k₀
    · subst h
      simp [List.lookup, Option.orElse]
    · simp [List.lookup, beq_eq_false_iff_ne.mpr h, ih]

theorem lookup_append_singleton_same (post : Post) (k : String) (v : Val)
    (h : List.lookup k post = none) :
    List.lookup k (post ++ [(k, v)]) = some v := by
  rw [lookup_append, h]
  simp [List.lookup, Option.orElse]

theorem lookup_append_singleton_other (post : Post) (k k' : String) (v : Val) (h : k' ≠ k) :
    List.lookup k' (post ++ [(k, v)]) = List.lookup k' post := by
  rw [lookup_append]
  have h0 : List.lookup k' [(k, v)] = none := by
    simp [List.lookup, beq_eq_false_iff_ne.mpr h]
  rw [h0]
  cases List.lookup k' post <;> simp [Option.orElse]

theorem matchesAt_of_gt_length (kw text : List Char) (i : Nat) (h : text.length < i) :
    matchesAt kw text i = false := by
  cases kw with
  | nil =>
    have h0 : i ≠ 0 := by omega
    have h1 : text[i]? = none := by
      rw [List.getElem?_eq_none_iff]
      omega
    have h2 : text[i - 1]? = none := by
      rw [List.getElem?_eq_none_iff]
      omega
    simp [matchesAt, boundaryAt, wordAt, h0, h1, h2, charsMatchAt]
  | cons c rest =>
    have h1 : text[i]? = none := by
      rw [List.getElem?_eq_none_iff]
      omega
    simp [matchesAt, charsMatchAt, h1]

theorem tryAlts_eq_none_iff (kws : List (List Char)) (text : List Char) (i : Nat) :
    tryAlts kws text i = none ↔ ∀ kw ∈ kws, matchesAt kw text i = false := by
  induction kws with
  | nil => simp [tryAlts]
  | cons kw rest ih =>
    by_cases h : matchesAt kw text i
    · simp [tryAlts, h]
    · simp only [Bool.not_eq_true] at h
      simp [tryAlts, h, ih]

theorem firstMatchAt_eq_none_of_gt (kws : List (List Char)) (text : List Char) (i : Nat)
    (h : text.length < i) : firstMatchAt kws text i = none := by
  cases kws with
  | nil =>
    simp only [firstMatchAt]
    rw [if_neg (by omega)]
  | cons kw rest =>
    simp only [firstMatchAt]
    rw [tryAlts_eq_none_iff]
    intro kw₀ _
    exact matchesAt_of_gt_length kw₀ text i h

theorem findallAux_eq_nil_iff (kws : List (List Char)) (text : List Char) :
    ∀ (fuel i : Nat),
      findallAux kws text fuel i = [] ↔
        ∀ j, i ≤ j → j < i + fuel → firstMatchAt kws text j = none := by
  intro fuel
  induction fuel with
  | zero =>
    intro i
    simp only [findallAux]
    constructor
    · intro _ j h1 h2
      omega
    · intro _
      trivial
  | succ fuel ih =>
    intro i
    cases hfm : firstMatchAt kws text i with
    | some m =>
      simp only [findallAux, hfm]
      constructor
      · intro hcontra
        exact absurd hcontra (List.cons_ne_nil _ _)
      · intro hall
        exact absurd (hall i le_rfl (by omega)) (by simp [hfm])
    | none =>
      simp only [findallAux, hfm]
      rw [ih (i + 1)]
      constructor
      · intro hall j h1 h2
        by_cases hj : j = i
        · subst hj
          exact hfm
        · exact hall j (by omega) (by omega)
      · intro hall j h1 h2
        exact hall j (by omega) (by omega)

theorem findall_eq_nil_iff (kws : List String) (text : String) :
    findall kws text = [] ↔
      ∀ j, firstMatchAt (kws.map String.data) text.data j = none := by
  constructor
  · intro h j
    by_cases hj : j ≤ text.data.length
    · rw [findall, List.map_eq_nil_iff] at h
      exact (findallAux_eq_nil_iff _ _ _ _).mp h j (Nat.zero_le j) (by omega)
    · exact firstMatchAt_eq_none_of_gt _ _ _ (by omega)
  · intro h
    rw [findall, List.map_eq_nil_iff]
    exact (findallAux_eq_nil_iff _ _ _ _).mpr (fun j _ _ => h j)

theorem searchB_iff_exists (kws : List String) (text : String) (hk : kws ≠ []) :
    searchB kws text = true ↔ ∃ kw ∈ kws, ∃ i, matchesAt kw.data text.data i = true := by
  cases kws with
  | nil => exact absurd rfl hk
  | cons k0 ks =>
    have h1 : searchB (k0 :: ks) text = true ↔ ¬(findall (k0 :: ks) text = []) := by
      simp [searchB, List.isEmpty_iff]
    rw [h1, findall_eq_nil_iff]
    push_neg
    constructor
    · rintro ⟨j, hj⟩
      have h2 : tryAlts ((k0 :: ks).map String.data) text.data j ≠ none := by
        simpa [firstMatchAt] using hj
      rw [Ne, tryAlts_eq_none_iff] at h2
      push_neg at h2
      obtain ⟨kwd, hmem, hmatch⟩ := h2
      obtain ⟨kw, hkw, rfl⟩ := List.mem_map.mp hmem
      exact ⟨kw, hkw, j, by simpa using hmatch⟩
    · rintro ⟨kw, hkw, i, hmatch⟩
      refine ⟨i, ?_⟩
      simp only [List.map_cons, firstMatchAt]
      rw [Ne, tryAlts_eq_none_iff]
      push_neg
      refine ⟨kw.data, ?_, by simp [hmatch]⟩
      rw [← List.map_cons]
      exact List.mem_map_of_mem _ hkw

example : findall ["bot"] "robotics" = [] := by decide

example : findall ["robot"] "I have a robot" = ["robot"] := by decide

example : findall ["robot"] "robot Robot Robot" = ["robot", "Robot", "Robot"] := by decide

example : findall ["ai"] "AI beats ai at AI" = ["AI", "ai", "AI"] := by decide

example : searchB [] "anything" = true := by decide

/-- C1 (counterexample): `postTwoExcl`'s title matches an exclusion keyword
under a negative `exclude_penalty` (both exclusion topics fire), yet the
final score is `-100`, twice the penalty, not exactly `exclude_penalty` as
the claim states. -/
theorem exclusion_veto_counterexample :
    cfgTwoExcl.scoring.exclude_penalty = -50 ∧
    (score_post cfgTwoExcl postTwoExcl).2.exclude_matches = ["celebrity", "crypto"] ∧
    (score_post cfgTwoExcl postTwoExcl).1 = -100 ∧
    (score_post cfgTwoExcl postTwoExcl).1 ≠ cfgTwoExcl.scoring.exclude_penalty := by
  have hm : exclMatched cfgTwoExcl postTwoExcl =
      [⟨"celebrity", ["kardashian"]⟩, ⟨"crypto", ["bitcoin"]⟩] := by decide
  have hs : exclScore cfgTwoExcl postTwoExcl = -100 := by
    rw [exclScore, hm]
    norm_num [cfgTwoExcl, exampleScoring]
  have hcond : exclScore cfgTwoExcl postTwoExcl ≤ cfgTwoExcl.scoring.exclude_penalty := by
    rw [hs]
    norm_num [cfgTwoExcl, exampleScoring]
  rw [score_post_eq, if_pos hcond, hm, hs]
  refine ⟨by norm_num [cfgTwoExcl, exampleScoring], by simp, rfl, ?_⟩
  norm_num [cfgTwoExcl, exampleScoring]

/-- C1 (amended): with a negative `exclude_penalty`, as soon as at least
one exclusion topic matches, `score_post` returns a final score equal to
`exclude_penalty` times the number of matching exclusion topics, with
`matched_topics` and `matched_keywords` empty and `score_breakdown`
containing only the `exclusion_penalty` key, regardless of any interest
keywords in the document. -/
theorem exclusion_veto_amended (f : InterestFilter) (post : Post)
    (hneg : f.scoring.exclude_penalty < 0)
    (hex : (score_post f post).2.exclude_matches ≠ []) :
    (score_post f post).1 =
      ((score_post f post).2.exclude_matches.length : ℚ) * f.scoring.exclude_penalty ∧
    (score_post f post).2.matched_topics = [] ∧
    (score_post f post).2.matched_keywords = [] ∧
    (score_post f post).2.score_breakdown =
      [("exclusion_penalty", (score_post f post).1)] := by
  by_cases hmn : exclMatched f post = []
  · exfalso
    apply hex
    have hz : exclScore f post = 0 := by
      rw [exclScore, hmn]
      simp
    rw [score_post_eq, if_neg (by rw [hz]; exact not_le.mpr hneg), hmn]
    simpa using foldl_interestStep_exclude f.scoring (postTitle post) (postSummary post)
      (postOther post) f.interests _
  · have hlen : 1 ≤ ((exclMatched f post).length : ℚ) := by
      have h1 : 1 ≤ (exclMatched f post).length := List.length_pos.mpr hmn
      exact_mod_cast h1
    have hcond : exclScore f post ≤ f.scoring.exclude_penalty := by
      rw [exclScore]
      nlinarith
    rw [score_post_eq, if_pos hcond]
    refine ⟨?_, rfl, rfl, rfl⟩
    simp [exclScore]

theorem score_cfgOneExcl :
    score_post cfgOneExcl postOneExcl =
      (-50, ⟨[], [], ["celebrity"], [("exclusion_penalty", -50)]⟩) := by
  have hm : exclMatched cfgOneExcl postOneExcl = [⟨"celebrity", ["kardashian"]⟩] := by decide
  have hs : exclScore cfgOneExcl postOneExcl = -50 := by
    rw [exclScore, hm]
    norm_num [cfgOneExcl, exampleScoring]
  rw [score_post_eq, if_pos (by rw [hs]; norm_num [cfgOneExcl, exampleScoring]), hm, hs]
  simp

/-- C1 (witness): the amended statement applied to a document matching a
single exclusion topic under `exclude_penalty = -50`. -/
theorem exclusion_veto_amended_witness :
    (score_post cfgOneExcl postOneExcl).1 =
      ((score_post cfgOneExcl postOneExcl).2.exclude_matches.length : ℚ) *
        cfgOneExcl.scoring.exclude_penalty ∧
    (score_post cfgOneExcl postOneExcl).2.matched_topics = [] := by
  have h := exclusion_veto_amended cfgOneExcl postOneExcl
    (by norm_num [cfgOneExcl, exampleScoring])
    (by rw [score_cfgOneExcl]; simp)
  exact ⟨h.1, h.2.1⟩

/-- C2 (counterexample): a configuration whose only interest topic has an
empty keyword list and the priority `urgent` (outside {high, medium, low})
is accepted by configuration loading, not rejected. -/
theorem config_load_counterexample :
    (Interest.keywords ⟨"ai", "urgent", []⟩ = [] ∧
      Interest.priority ⟨"ai", "urgent", []⟩ ∉ (["high", "medium", "low"] : List String)) ∧
    loadConfig rawBadConfig =
      Except.ok { interests := [⟨"ai", "urgent", []⟩], exclude_topics := [],
                  scoring := exampleScoring } := by
  exact ⟨⟨rfl, by decide⟩, rfl⟩

/-- C2 (amended): configuration loading fails exactly when the `interests`
or `scoring` top-level entry is missing (or the source is unreadable or
unparsable, which is outside this model); empty keyword lists and
priorities outside {high, medium, low} are accepted at load time, an
unknown priority simply falling back to weight 1 during scoring. -/
theorem config_load_amended (raw : RawConfig) :
    ((∃ f, loadConfig raw = Except.ok f) ↔ raw.interests.isSome ∧ raw.scoring.isSome) ∧
    ∀ sc : Scoring, ∀ p : String, p ≠ "high" → p ≠ "medium" → p ≠ "low" →
      get_priority_weight sc p = 1 := by
  constructor
  · cases hi : raw.interests <;> cases hs : raw.scoring <;>
      simp [loadConfig, hi, hs]
  · intro sc p h1 h2 h3
    simp [get_priority_weight, h1, h2, h3]

/-- C2 (witness): the amended statement applied to `rawBadConfig` and the
priority `urgent`. -/
theorem config_load_amended_witness :
    ((∃ f, loadConfig rawBadConfig = Except.ok f) ↔
      rawBadConfig.interests.isSome ∧ rawBadConfig.scoring.isSome) ∧
    get_priority_weight exampleScoring "urgent" = 1 :=
  ⟨(config_load_amended rawBadConfig).1,
   (config_load_amended rawBadConfig).2 exampleScoring "urgent" (by decide) (by decide) (by decide)⟩

/-- C3: `filter_posts` returns exactly the annotated documents (a
permutation of annotating each input, so none is dropped), sorted in
descending order of `relevance_score`, and the sort is stable: for every
score value, the documents carrying it appear in the output in the same
relative order as in the annotated input. -/
theorem filter_ranking_complete_sorted_stable (f : InterestFilter) (posts : List Post) :
    List.Perm (filter_posts f posts) (posts.map (enhancePost f)) ∧
    List.Pairwise (fun a b => relScore b ≤ relScore a) (filter_posts f posts) ∧
    ∀ s : ℚ,
      (filter_posts f posts).filter (fun p => decide (relScore p = s)) =
        (posts.map (enhancePost f)).filter (fun p => decide (relScore p = s)) := by
  have htrans : ∀ a b c : Post,
      (fun a b : Post => decide (relScore b ≤ relScore a)) a b →
      (fun a b : Post => decide (relScore b ≤ relScore a)) b c →
      (fun a b : Post => decide (relScore b ≤ relScore a)) a c := by
    intro a b c hab hbc
    simp only [decide_eq_true_eq] at *
    exact le_trans hbc hab
  have htotal : ∀ a b : Post,
      ((fun a b : Post => decide (relScore b ≤ relScore a)) a b ||
        (fun a b : Post => decide (relScore b ≤ relScore a)) b a) := by
    intro a b
    rcases le_total (relScore a) (relScore b) with h | h <;> simp [h]
  refine ⟨List.mergeSort_perm _ _, ?_, ?_⟩
  · have hs := List.sorted_mergeSort htrans htotal (posts.map (enhancePost f))
    exact hs.imp (fun h => by simpa using of_decide_eq_true h)
  · intro s
    have hperm : List.Perm (filter_posts f posts) (posts.map (enhancePost f)) :=
      List.mergeSort_perm _ _
    have hcall : ∀ p ∈ (posts.map (enhancePost f)).filter (fun p => decide (relScore p = s)),
        relScore p = s := by
      intro p hp
      simpa using List.of_mem_filter hp
    have hpair : ((posts.map (enhancePost f)).filter
        (fun p => decide (relScore p = s))).Pairwise
          (fun a b : Post => decide (relScore b ≤ relScore a)) := by
      apply List.pairwise_of_forall_mem_list
      intro a ha b hb
      simp [hcall a ha, hcall b hb]
    have hsub : List.Sublist
        ((posts.map (enhancePost f)).filter (fun p => decide (relScore p = s)))
        (posts.map (enhancePost f)) := List.filter_sublist _
    have h1 : List.Sublist
        ((posts.map (enhancePost f)).filter (fun p => decide (relScore p = s)))
        (filter_posts f posts) :=
      List.sublist_mergeSort htrans htotal hpair hsub
    have h2 : ((posts.map (enhancePost f)).filter (fun p => decide (relScore p = s))).filter
        (fun p => decide (relScore p = s)) =
          (posts.map (enhancePost f)).filter (fun p => decide (relScore p = s)) :=
      List.filter_eq_self.mpr (fun a ha => by simp [hcall a ha])
    have h3 : List.Sublist
        ((posts.map (enhancePost f)).filter (fun p => decide (relScore p = s)))
        ((filter_posts f posts).filter (fun p => decide (relScore p = s))) := by
      have h4 := h1.filter (fun p => decide (relScore p = s))
      rwa [h2] at h4
    have h5 : List.Perm ((filter_posts f posts).filter (fun p => decide (relScore p = s)))
        ((posts.map (enhancePost f)).filter (fun p => decide (relScore p = s))) :=
      hperm.filter _
    exact (h3.eq_of_length h5.length_eq.symm).symm

/-- C4: every document annotated by `filter_posts` carries
`is_relevant = true` exactly when its `relevance_score` is at least
`minimum_score_threshold`, the boundary case included. -/
theorem is_relevant_threshold (f : InterestFilter) (posts : List Post) (p : Post)
    (hp : p ∈ filter_posts f posts) :
    List.lookup "is_relevant" p = some (Val.bool true) ↔
      f.scoring.minimum_score_threshold ≤ relScore p := by
  have hmem : p ∈ posts.map (enhancePost f) := by
    rw [filter_posts] at hp
    exact List.mem_mergeSort.mp hp
  obtain ⟨q, _, rfl⟩ := List.mem_map.mp hmem
  rw [lookup_enhancePost_relevant, relScore_enhancePost]
  simp

/-- C4 (witness): the threshold equivalence applied to the specification's
end-to-end example document. -/
theorem is_relevant_threshold_witness :
    List.lookup "is_relevant" (enhancePost cfgRobot postRobot) = some (Val.bool true) ↔
      cfgRobot.scoring.minimum_score_threshold ≤ relScore (enhancePost cfgRobot postRobot) :=
  is_relevant_threshold cfgRobot [postRobot] (enhancePost cfgRobot postRobot)
    (by simp [filter_posts])

theorem score_cfgZeroWeight :
    score_post cfgZeroWeight postSingleRobot =
      (0, ⟨[⟨"robotics", "high", 0⟩], ["robot"], [], [("robotics", 0)]⟩) := by
  have hm : exclMatched cfgZeroWeight postSingleRobot = [] := by decide
  have hs0 : exclScore cfgZeroWeight postSingleRobot = 0 := by
    rw [exclScore, hm]
    simp
  have ht : postTitle postSingleRobot = "robot" := by decide
  have hsum : postSummary postSingleRobot = "" := by decide
  have hoth : postOther postSingleRobot = " " := by decide
  have hf1 : findall ["robot"] "robot" = ["robot"] := by decide
  have hf2 : findall ["robot"] "" = [] := by decide
  have hf3 : findall ["robot"] " " = [] := by decide
  rw [score_post_eq, if_neg (by rw [hs0]; norm_num [cfgZeroWeight, exampleScoring]),
    hm, hs0, ht, hsum, hoth]
  simp only [cfgZeroWeight, exampleScoring, List.foldl_cons, List.foldl_nil, interestStep,
    topicMatchList, topicScoreVal, get_priority_weight, hf1, hf2, hf3]
  norm_num [List.dedup_nil, List.dedup_cons_of_not_mem]

/-- C5 (counterexample): under a zero priority weight, a document whose
title matches an interest keyword gets `topic_score = 0`, yet the topic is
appended to `matched_topics` (and recorded in `score_breakdown`, and its
matched keyword in `matched_keywords`), contradicting the claim that only
topics with `topic_score > 0` contribute. -/
theorem matched_topics_counterexample :
    (score_post cfgZeroWeight postSingleRobot).2.matched_topics = [⟨"robotics", "high", 0⟩] ∧
    (score_post cfgZeroWeight postSingleRobot).2.score_breakdown = [("robotics", 0)] ∧
    (score_post cfgZeroWeight postSingleRobot).2.matched_keywords = ["robot"] := by
  rw [score_cfgZeroWeight]
  exact ⟨rfl, rfl, rfl⟩

/-- C5 (amended): when the exclusion early exit does not fire, an interest
topic contributes an entry to `matched_topics` (with its topic, priority
and `topic_score`) exactly when it has at least one keyword match in some
field — regardless of whether its `topic_score` is positive. -/
theorem matched_topics_amended (f : InterestFilter) (post : Post)
    (hne : f.scoring.exclude_penalty < exclScore f post) :
    (score_post f post).2.matched_topics =
      (f.interests.filter (fun i =>
        decide (topicMatchList i (postTitle post) (postSummary post) (postOther post) ≠ []))).map
        (fun i => ⟨i.topic, i.priority,
          topicScoreVal f.scoring i (postTitle post) (postSummary post) (postOther post)⟩) := by
  rw [score_post_eq, if_neg (not_le.mpr hne), foldl_interestStep_matched_topics]
  simp

/-- C5 (witness): the amended statement applied to the end-to-end example
configuration and document. -/
theorem matched_topics_amended_witness :
    (score_post cfgRobot postRobot).2.matched_topics =
      (cfgRobot.interests.filter (fun i =>
        decide (topicMatchList i (postTitle postRobot) (postSummary postRobot)
          (postOther postRobot) ≠ []))).map
        (fun i => ⟨i.topic, i.priority,
          topicScoreVal cfgRobot.scoring i (postTitle postRobot) (postSummary postRobot)
            (postOther postRobot)⟩) :=
  matched_topics_amended cfgRobot postRobot
    (by
      have hm : exclMatched cfgRobot postRobot = [] := by decide
      rw [exclScore, hm]
      norm_num [cfgRobot, exampleScoring])

theorem score_cfgSharedKw :
    score_post cfgSharedKw postAI =
      (16, ⟨[⟨"ml", "high", 10⟩, ⟨"agents", "medium", 6⟩], ["ai", "ai"], [],
        [("ml", 10), ("agents", 6)]⟩) := by
  have hm : exclMatched cfgSharedKw postAI = [] := by decide
  have hs0 : exclScore cfgSharedKw postAI = 0 := by
    rw [exclScore, hm]
    simp
  have ht : postTitle postAI = "ai" := by decide
  have hsum : postSummary postAI = "" := by decide
  have hoth : postOther postAI = " " := by decide
  have hf1 : findall ["ai"] "ai" = ["ai"] := by decide
  have hf2 : findall ["ai"] "" = [] := by decide
  have hf3 : findall ["ai"] " " = [] := by decide
  rw [score_post_eq, if_neg (by rw [hs0]; norm_num [cfgSharedKw, exampleScoring]),
    hm, hs0, ht, hsum, hoth]
  simp only [cfgSharedKw, exampleScoring, List.foldl_cons, List.foldl_nil, interestStep,
    topicMatchList, topicScoreVal, get_priority_weight, hf1, hf2, hf3]
  norm_num [List.dedup_nil, List.dedup_cons_of_not_mem,
    (by decide : ¬(("medium" : String) = "high"))]

/-- C6 (counterexample): with two interest topics sharing the keyword `ai`,
a document matching it once gets `matched_keywords = ["ai", "ai"]`, which
contains a duplicate entry, contradicting the claim that `matched_keywords`
is duplicate-free across topics. -/
theorem matched_keywords_counterexample :
    (score_post cfgSharedKw postAI).2.matched_keywords = ["ai", "ai"] ∧
    ¬ (score_post cfgSharedKw postAI).2.matched_keywords.Nodup := by
  rw [score_cfgSharedKw]
  exact ⟨rfl, by decide⟩

/-- C6 (amended): when the exclusion early exit does not fire,
`matched_keywords` contains each string exactly once per interest topic
that matches it (deduplication happens within each topic's contribution,
not across topics): the number of occurrences of any string equals the
number of interest topics whose match list contains it. -/
theorem matched_keywords_amended (f : InterestFilter) (post : Post)
    (hne : f.scoring.exclude_penalty < exclScore f post) (kw : String) :
    (score_post f post).2.matched_keywords.count kw =
      (f.interests.filter (fun i =>
        decide (kw ∈ topicMatchList i (postTitle post) (postSummary post) (postOther post)))).length := by
  rw [score_post_eq, if_neg (not_le.mpr hne), foldl_interestStep_count]
  simp

/-- C6 (witness): the amended statement applied to the shared-keyword
configuration: `ai` occurs twice, once per matching topic. -/
theorem matched_keywords_amended_witness :
    (score_post cfgSharedKw postAI).2.matched_keywords.count "ai" =
      (cfgSharedKw.interests.filter (fun i =>
        decide ("ai" ∈ topicMatchList i (postTitle postAI) (postSummary postAI)
          (postOther postAI)))).length :=
  matched_keywords_amended cfgSharedKw postAI
    (by
      have hm : exclMatched cfgSharedKw postAI = [] := by decide
      rw [exclScore, hm]
      norm_num [cfgSharedKw, exampleScoring])
    "ai"

theorem score_cfgRobot_cased :
    score_post cfgRobot postCased =
      (20, ⟨[⟨"robotics", "high", 20⟩], ["robot", "Robot"], [], [("robotics", 20)]⟩) := by
  have hm : exclMatched cfgRobot postCased = [] := by decide
  have hs0 : exclScore cfgRobot postCased = 0 := by
    rw [exclScore, hm]
    simp
  have ht : postTitle postCased = "robot Robot Robot" := by decide
  have hsum : postSummary postCased = "" := by decide
  have hoth : postOther postCased = " " := by decide
  have hf1 : findall ["robot", "robotics"] "robot Robot Robot" = ["robot", "Robot", "Robot"] := by
    decide
  have hf2 : findall ["robot", "robotics"] "" = [] := by decide
  have hf3 : findall ["robot", "robotics"] " " = [] := by decide
  have hd : List.dedup ["robot", "Robot", "Robot"] = ["robot", "Robot"] := by decide
  rw [score_post_eq, if_neg (by rw [hs0]; norm_num [cfgRobot, exampleScoring]),
    hm, hs0, ht, hsum, hoth]
  simp only [cfgRobot, exampleScoring, List.foldl_cons, List.foldl_nil, interestStep,
    topicMatchList, topicScoreVal, get_priority_weight, hf1, hf2, hf3]
  norm_num [hd, (by decide : ¬((["robot", "Robot", "Robot"] : List String) = []))]

theorem score_cfgRobot_single :
    score_post cfgRobot postSingleRobot =
      (10, ⟨[⟨"robotics", "high", 10⟩], ["robot"], [], [("robotics", 10)]⟩) := by
  have hm : exclMatched cfgRobot postSingleRobot = [] := by decide
  have hs0 : exclScore cfgRobot postSingleRobot = 0 := by
    rw [exclScore, hm]
    simp
  have ht : postTitle postSingleRobot = "robot" := by decide
  have hsum : postSummary postSingleRobot = "" := by decide
  have hoth : postOther postSingleRobot = " " := by decide
  have hf1 : findall ["robot", "robotics"] "robot" = ["robot"] := by decide
  have hf2 : findall ["robot", "robotics"] "" = [] := by decide
  have hf3 : findall ["robot", "robotics"] " " = [] := by decide
  rw [score_post_eq, if_neg (by rw [hs0]; norm_num [cfgRobot, exampleScoring]),
    hm, hs0, ht, hsum, hoth]
  simp only [cfgRobot, exampleScoring, List.foldl_cons, List.foldl_nil, interestStep,
    topicMatchList, topicScoreVal, get_priority_weight, hf1, hf2, hf3]
  norm_num [List.dedup_nil, List.dedup_cons_of_not_mem]

/-- C7 (counterexample): the matching is case-insensitive, so
`"robot Robot Robot"` repeats the keyword `robot` three times in the title;
the code counts distinct matched texts case-sensitively, scoring this
document 20 while `"robot"` scores 10 — not the same score, contradicting
the universally quantified claim. -/
theorem distinctness_counterexample :
    findall ["robot", "robotics"] "robot Robot Robot" = ["robot", "Robot", "Robot"] ∧
    (score_post cfgRobot postCased).1 = 20 ∧
    (score_post cfgRobot postSingleRobot).1 = 10 ∧
    (score_post cfgRobot postCased).1 ≠ (score_post cfgRobot postSingleRobot).1 := by
  rw [score_cfgRobot_cased, score_cfgRobot_single]
  refine ⟨by decide, rfl, rfl, by norm_num⟩

/-- C7 (amended): repeated occurrences of a keyword with identical literal
text in one field contribute exactly once: under every choice of scoring
constants, a title repeating `robot` three times with identical casing
yields the same score result as a title with a single occurrence.
Occurrences differing in letter-case are counted separately, as the
counterexample shows: distinctness is computed on the matched text,
case-sensitively. -/
theorem distinctness_amended (sc : Scoring) :
    score_post ⟨[⟨"robotics", "high", ["robot"]⟩], [], sc⟩
        [("title", Val.str "robot robot robot")] =
      score_post ⟨[⟨"robotics", "high", ["robot"]⟩], [], sc⟩
        [("title", Val.str "robot")] := rfl

/-- C8: keyword matching is case-insensitive and whole-word (keywords are
escaped, so they match literally): for a compiled pattern with at least one
keyword, the pattern matches a field exactly when some keyword occurs in it
with word boundaries on both sides (case-insensitively); in particular
`robotics` does not match the keyword `bot`, `I have a robot` matches the
keyword `robot` (also when cased `ROBOT`), and inside
`robotics robot` only the whole word `robot` is found. -/
theorem word_boundary_matching :
    (∀ (kws : List String) (text : String), kws ≠ [] →
      (searchB kws text = true ↔ ∃ kw ∈ kws, ∃ i, matchesAt kw.data text.data i = true)) ∧
    searchB ["bot"] "robotics" = false ∧
    searchB ["robot"] "I have a robot" = true ∧
    searchB ["robot"] "I have a ROBOT" = true ∧
    findall ["robot"] "robotics robot" = ["robot"] :=
  ⟨fun kws text hk => searchB_iff_exists kws text hk, by decide, by decide, by decide, by decide⟩

/-- C8 (witness): the whole-word equivalence applied to the concrete
keyword list `["robot"]` and the text `I have a robot`. -/
theorem word_boundary_matching_witness :
    searchB ["robot"] "I have a robot" = true ↔
      ∃ kw ∈ (["robot"] : List String), ∃ i, matchesAt kw.data "I have a robot".data i = true :=
  word_boundary_matching.1 ["robot"] "I have a robot" (by decide)

/-- C9: scoring tolerates absent fields by substituting empty values: a
post missing `title`, `ai_summary`, `key_points` or `significance` is
scored exactly as the same post with that field present and empty.  (In
the embedding `score_post` and `filter_posts` are total functions, so no
error can be raised for any document.) -/
theorem missing_fields_defaulted (f : InterestFilter) (post : Post) :
    (List.lookup "title" post = none →
      score_post f post = score_post f (post ++ [("title", Val.str "")])) ∧
    (List.lookup "ai_summary" post = none →
      score_post f post = score_post f (post ++ [("ai_summary", Val.str "")])) ∧
    (List.lookup "key_points" post = none →
      score_post f post = score_post f (post ++ [("key_points", Val.strList [])])) ∧
    (List.lookup "significance" post = none →
      score_post f post = score_post f (post ++ [("significance", Val.str "")])) := by
  refine ⟨fun h => ?_, fun h => ?_, fun h => ?_, fun h => ?_⟩
  · have e1 : postTitle (post ++ [("title", Val.str "")]) = postTitle post := by
      simp only [postTitle, getStr, lookup_append_singleton_same post _ _ h, h]
    have e2 : postSummary (post ++ [("title", Val.str "")]) = postSummary post := by
      simp only [postSummary, getStr,
        lookup_append_singleton_other post "title" "ai_summary" _ (by decide)]
    have e3 : postKeyPointsText (post ++ [("title", Val.str "")]) = postKeyPointsText post := by
      simp only [postKeyPointsText, getStrList,
        lookup_append_singleton_other post "title" "key_points" _ (by decide)]
    have e4 : postSignificance (post ++ [("title", Val.str "")]) = postSignificance post := by
      simp only [postSignificance, getStr,
        lookup_append_singleton_other post "title" "significance" _ (by decide)]
    rw [score_post, score_post, e1, e2, e3, e4]
  · have e1 : postTitle (post ++ [("ai_summary", Val.str "")]) = postTitle post := by
      simp only [postTitle, getStr,
        lookup_append_singleton_other post "ai_summary" "title" _ (by decide)]
    have e2 : postSummary (post ++ [("ai_summary", Val.str "")]) = postSummary post := by
      simp only [postSummary, getStr, lookup_append_singleton_same post _ _ h, h]
    have e3 : postKeyPointsText (post ++ [("ai_summary", Val.str "")]) =
        postKeyPointsText post := by
      simp only [postKeyPointsText, getStrList,
        lookup_append_singleton_other post "ai_summary" "key_points" _ (by decide)]
    have e4 : postSignificance (post ++ [("ai_summary", Val.str "")]) =
        postSignificance post := by
      simp only [postSignificance, getStr,
        lookup_append_singleton_other post "ai_summary" "significance" _ (by decide)]
    rw [score_post, score_post, e1, e2, e3, e4]
  · have e1 : postTitle (post ++ [("key_points", Val.strList [])]) = postTitle post := by
      simp only [postTitle, getStr,
        lookup_append_singleton_other post "key_points" "title" _ (by decide)]
    have e2 : postSummary (post ++ [("key_points", Val.strList [])]) = postSummary post := by
      simp only [postSummary, getStr,
        lookup_append_singleton_other post "key_points" "ai_summary" _ (by decide)]
    have e3 : postKeyPointsText (post ++ [("key_points", Val.strList [])]) =
        postKeyPointsText post := by
      simp only [postKeyPointsText, getStrList,
        lookup_append_singleton_same post _ _ h, h]
    have e4 : postSignificance (post ++ [("key_points", Val.strList [])]) =
        postSignificance post := by
      simp only [postSignificance, getStr,
        lookup_append_singleton_other post "key_points" "significance" _ (by decide)]
    rw [score_post, score_post, e1, e2, e3, e4]
  · have e1 : postTitle (post ++ [("significance", Val.str "")]) = postTitle post := by
      simp only [postTitle, getStr,
        lookup_append_singleton_other post "significance" "title" _ (by decide)]
    have e2 : postSummary (post ++ [("significance", Val.str "")]) = postSummary post := by
      simp only [postSummary, getStr,
        lookup_append_singleton_other post "significance" "ai_summary" _ (by decide)]
    have e3 : postKeyPointsText (post ++ [("significance", Val.str "")]) =
        postKeyPointsText post := by
      simp only [postKeyPointsText, getStrList,
        lookup_append_singleton_other post "significance" "key_points" _ (by decide)]
    have e4 : postSignificance (post ++ [("significance", Val.str "")]) =
        postSignificance post := by
      simp only [postSignificance, getStr, lookup_append_singleton_same post _ _ h, h]
    rw [score_post, score_post, e1, e2, e3, e4]

/-- C9 (witness): the empty post (all four fields absent) is scored as a
post with an empty title. -/
theorem missing_fields_defaulted_witness :
    score_post cfgRobot [] = score_post cfgRobot [("title", Val.str "")] :=
  (missing_fields_defaulted cfgRobot []).1 rfl

/-- C10: annotation is non-destructive: the annotated post keeps every
key-value pair of the input except the three computed keys, which are set
to the computed score, match structure and relevance flag — overwriting any
value the input may already have held under those keys.  (`score_post` and
`filter_posts` are pure functions of their arguments in this embedding;
the Python code builds a fresh dict per post and never assigns into its
inputs.) -/
theorem enhance_preserves_fields (f : InterestFilter) (post : Post) (k : String) :
    (k ≠ "relevance_score" → k ≠ "relevance_matches" → k ≠ "is_relevant" →
      List.lookup k (enhancePost f post) = List.lookup k post) ∧
    List.lookup "relevance_score" (enhancePost f post) = some (Val.num (score_post f post).1) ∧
    List.lookup "relevance_matches" (enhancePost f post) =
      some (Val.matchInfo (score_post f post).2) ∧
    List.lookup "is_relevant" (enhancePost f post) =
      some (Val.bool (decide (f.scoring.minimum_score_threshold ≤ (score_post f post).1))) :=
  ⟨fun h1 h2 h3 => lookup_enhancePost_other f post k h1 h2 h3,
   lookup_enhancePost_score f post,
   lookup_enhancePost_matchInfo f post,
   lookup_enhancePost_relevant f post⟩

/-- C10 (witness): the `title` key of the end-to-end example document is
unchanged by annotation. -/
theorem enhance_preserves_fields_witness :
    List.lookup "title" (enhancePost cfgRobot postRobot) = List.lookup "title" postRobot :=
  (enhance_preserves_fields cfgRobot postRobot "title").1 (by decide) (by decide) (by decide)

end NewsBot
